import Mathlib

/-!
# Verification of the `ksuidx` identifier library

Shallow embedding of `src/ksuidx.go`: namespaced, sortable identifiers that
combine a 3-byte namespace tag with an opaque 20-byte time-ordered random
identifier (a KSUID).  Go byte slices and strings are modelled as `List Nat`
(each element a byte value), Go's `(value, error)` multiple returns as pairs
`α × Option GoErr`, and the external collaborators (the segmentio KSUID
primitive and the JSON library) are modelled from the spec's collaborator
contract.
-/

namespace Ksuidx

/-! ## Positional base conversion (used by the Base62 string codec) -/

/-- Value of a big-endian digit string in base `b`. -/
def fromBase (b : Nat) (ds : List Nat) : Nat :=
  ds.foldl (fun acc d => acc * b + d) 0

/-- Fixed-width big-endian digit string of `n` in base `b` (`len` digits,
left-padded with zeros). -/
def toBase (b : Nat) : Nat → Nat → List Nat
  | _, 0 => []
  | n, len + 1 => toBase b (n / b) len ++ [n % b]

theorem toBase_length (b n len : Nat) : (toBase b n len).length = len := by
  induction len generalizing n with
  | zero => rfl
  | succ k ih => simp [toBase, ih]

theorem toBase_digit_lt (b : Nat) (hb : 0 < b) (n len : Nat) :
    ∀ d ∈ toBase b n len, d < b := by
  induction len generalizing n with
  | zero => simp [toBase]
  | succ k ih =>
    intro d hd
    simp only [toBase, List.mem_append, List.mem_singleton] at hd
    rcases hd with h | h
    · exact ih _ d h
    · subst h; exact Nat.mod_lt n hb

theorem fromBase_append_singleton (b : Nat) (ds : List Nat) (d : Nat) :
    fromBase b (ds ++ [d]) = fromBase b ds * b + d := by
  simp [fromBase, List.foldl_append]

theorem fromBase_toBase (b : Nat) (hb : 0 < b) (len : Nat) :
    ∀ n, n < b ^ len → fromBase b (toBase b n len) = n := by
  induction len with
  | zero =>
    intro n hn
    rw [pow_zero, Nat.lt_one_iff] at hn
    subst hn
    rfl
  | succ k ih =>
    intro n hn
    have hdiv : n / b < b ^ k := by
      rw [Nat.div_lt_iff_lt_mul hb]
      calc n < b ^ (k + 1) := hn
        _ = b ^ k * b := pow_succ b k
    rw [toBase, fromBase_append_singleton, ih (n / b) hdiv, Nat.mul_comm,
      Nat.div_add_mod]

theorem fromBase_lt (b : Nat) (ds : List Nat)
    (h : ∀ d ∈ ds, d < b) : fromBase b ds < b ^ ds.length := by
  induction ds using List.reverseRecOn with
  | nil => simp [fromBase]
  | append_singleton ds d ih =>
    have hd : d < b := h d (by simp)
    have hds : fromBase b ds < b ^ ds.length :=
      ih fun x hx => h x (by simp [hx])
    rw [fromBase_append_singleton, List.length_append, List.length_singleton]
    calc fromBase b ds * b + d < (fromBase b ds + 1) * b := by
          rw [Nat.add_mul, Nat.one_mul]; omega
      _ ≤ b ^ ds.length * b := Nat.mul_le_mul_right b hds
      _ = b ^ (ds.length + 1) := (pow_succ b ds.length).symm

theorem toBase_fromBase (b : Nat) (hb : 0 < b) (ds : List Nat)
    (h : ∀ d ∈ ds, d < b) : toBase b (fromBase b ds) ds.length = ds := by
  induction ds using List.reverseRecOn with
  | nil => rfl
  | append_singleton ds d ih =>
    have hd : d < b := h d (by simp)
    have hmod : (fromBase b ds * b + d) % b = d := by
      rw [Nat.mul_comm, Nat.mul_add_mod]; exact Nat.mod_eq_of_lt hd
    have hdiv : (fromBase b ds * b + d) / b = fromBase b ds := by
      rw [Nat.mul_comm, Nat.mul_add_div hb, Nat.div_eq_of_lt hd, Nat.add_zero]
    rw [List.length_append, List.length_singleton, fromBase_append_singleton,
      toBase, hmod, hdiv, ih fun x hx => h x (by simp [hx])]

/-! ## Go-side error values

The Go code distinguishes error values by identity.  Each distinct error
value of the code and of its external collaborators is one constructor, so
"the single canonical `X` error value" is a single constructor here. -/

inductive GoErr
  /-- Go error value `errNamespaceSize` in ksuidx. -/
  | namespaceSize
  /-- Go error value `errStringSize` in ksuidx. -/
  | stringSize
  /-- the JSON library's syntax/type error for malformed or non-string input. -/
  | jsonSyntax
  /-- the KSUID primitive's binary-decoder length error. -/
  | ksuidBytesSize
  /-- the KSUID primitive's string-decoder length error. -/
  | ksuidStrSize
  /-- the KSUID primitive's string-decoder invalid-character error. -/
  | ksuidBadChar
  /-- the KSUID primitive's string-decoder overflow error. -/
  | ksuidOverflow
deriving DecidableEq, Repr

/-! ## The opaque KSUID primitive (external collaborator)

A KSUID is a 20-byte value; it is modelled as a `List Nat` of its byte
values.  The collaborator's operations are those the spec's contract lists:
decode-from-20-bytes, decode-from-27-char-string, encode/append, and an
all-zero sentinel. -/

/-- segmentio byte length of a KSUID. -/
def ksuidByteLength : Nat := 20

/-- segmentio string-encoded length of a KSUID. -/
def ksuidStringLength : Nat := 27

/-- The all-zero sentinel KSUID, `ksuid.Nil`. -/
def ksuidNil : List Nat := List.replicate ksuidByteLength 0

/-- Byte value of Base62 digit `d` in the alphabet
`0-9A-Za-z` (the digit-to-character table of the codec). -/
def base62Char (d : Nat) : Nat :=
  if d < 10 then 48 + d
  else if d < 36 then 55 + d
  else 61 + d

/-- Base62 digit value of byte `c`, or `none` for a byte outside the
alphabet (the character-to-digit table of the codec). -/
def base62Digit (c : Nat) : Option Nat :=
  if 48 ≤ c ∧ c ≤ 57 then some (c - 48)
  else if 65 ≤ c ∧ c ≤ 90 then some (c - 55)
  else if 97 ≤ c ∧ c ≤ 122 then some (c - 61)
  else none

/-- Decode a list of bytes as Base62 digits, failing on the first byte
outside the alphabet. -/
def mapDigits : List Nat → Option (List Nat)
  | [] => some []
  | c :: rest =>
    match base62Digit c, mapDigits rest with
    | some d, some ds => some (d :: ds)
    | _, _ => none

/-- Modelled from the spec: the KSUID primitive's
`encode-to-27-char-string` operation (segmentio's `KSUID.String`), which is
the "Base62-style fixed-length encoding of the 20-byte identifier
(27 characters)": the 20 bytes read as a big-endian number, written as 27
Base62 digits left-padded with `0`. -/
def ksuidToString (v : List Nat) : List Nat :=
  (toBase 62 (fromBase 256 v) ksuidStringLength).map base62Char

/-- Modelled from the spec: the KSUID primitive's append-encoding
(segmentio's `KSUID.Append`), which appends the 27-character string
representation to the buffer. -/
def ksuidAppend (v : List Nat) (b : List Nat) : List Nat :=
  b ++ ksuidToString v

/-- Modelled from the spec: the KSUID primitive's
`decode-from-20-bytes returning value or error` operation (segmentio's
`ksuid.FromBytes`); its "own length check is the only guard", and on
failure it returns its nil sentinel alongside its error. -/
def ksuidFromBytes (b : List Nat) : List Nat × Option GoErr :=
  if b.length = ksuidByteLength then (b, none)
  else (ksuidNil, some GoErr.ksuidBytesSize)

/-- Modelled from the spec: the KSUID primitive's
`decode-from-27-char-string returning value or error` operation
(segmentio's `ksuid.Parse`): wrong length, a byte outside the Base62
alphabet, and a numeric value that does not fit in 20 bytes each fail with
the primitive's own error. -/
def ksuidParse (s : List Nat) : List Nat × Option GoErr :=
  if s.length = ksuidStringLength then
    match mapDigits s with
    | none => (ksuidNil, some GoErr.ksuidBadChar)
    | some ds =>
      let n := fromBase 62 ds
      if n < 256 ^ ksuidByteLength then (toBase 256 n ksuidByteLength, none)
      else (ksuidNil, some GoErr.ksuidOverflow)
  else (ksuidNil, some GoErr.ksuidStrSize)

theorem base62_digit_char (d : Nat) (hd : d < 62) :
    base62Digit (base62Char d) = some d := by
  revert hd
  revert d
  decide

theorem mapDigits_map_base62Char (ds : List Nat) (h : ∀ d ∈ ds, d < 62) :
    mapDigits (ds.map base62Char) = some ds := by
  induction ds with
  | nil => rfl
  | cons d ds ih =>
    have hd : d < 62 := h d (by simp)
    simp only [List.map_cons, mapDigits, base62_digit_char d hd,
      ih fun x hx => h x (by simp [hx])]

theorem ksuidToString_length (v : List Nat) :
    (ksuidToString v).length = 27 := by
  simp [ksuidToString, toBase_length, ksuidStringLength]

/-- The string codec of the KSUID primitive round-trips on every
well-formed 20-byte value. -/
theorem ksuidParse_toString (v : List Nat) (h20 : v.length = 20)
    (h256 : ∀ x ∈ v, x < 256) : ksuidParse (ksuidToString v) = (v, none) := by
  have hlen : (ksuidToString v).length = ksuidStringLength :=
    ksuidToString_length v
  have hvlt : fromBase 256 v < 256 ^ 20 := by
    have := fromBase_lt 256 v h256
    rwa [h20] at this
  have hlt62 : fromBase 256 v < 62 ^ 27 :=
    lt_of_lt_of_le hvlt (by norm_num)
  have hdigits : ∀ d ∈ toBase 62 (fromBase 256 v) 27, d < 62 :=
    toBase_digit_lt 62 (by norm_num) _ _
  rw [ksuidParse, if_pos hlen]
  rw [ksuidToString, ksuidStringLength,
    mapDigits_map_base62Char _ hdigits]
  simp only [fromBase_toBase 62 (by norm_num) 27 _ hlt62]
  rw [if_pos (by simpa [ksuidByteLength] using hvlt)]
  have := toBase_fromBase 256 (by norm_num) v h256
  rw [h20] at this
  simp [ksuidByteLength, this]

/-! ## Constants of ksuidx (`const` block of `ksuidx.go`) -/

/-- length of a ksuidx id in bytes. -/
def byteLength : Nat := 23

/-- length of segmentio's ksuid in bytes. -/
def baseLength : Nat := 20

/-- Length of the namespace segment: `byteLength - baseLength`. -/
def nsLength : Nat := byteLength - baseLength

/-- length of the string-encoded form of an id. -/
def stringEncodedLength : Nat := 30

/-! ## Namespace (`type Namespace [nsLength]byte`) -/

/-- A `Namespace` is a fixed array of 3 byte values. -/
structure Namespace where
  b0 : Nat
  b1 : Nat
  b2 : Nat
deriving DecidableEq, Repr

/-- Method `raw()`: the namespace's 3 tag bytes as a slice. -/
def Namespace.raw (n : Namespace) : List Nat := [n.b0, n.b1, n.b2]

/-- Method `Namespace.Append`: append the 3 raw bytes to the buffer `b`. -/
def Namespace.Append (n : Namespace) (b : List Nat) : List Nat :=
  b ++ n.raw

/-- Method `Namespace.Bytes`: a fresh buffer holding the 3 raw bytes. -/
def Namespace.Bytes (n : Namespace) : List Nat :=
  Namespace.Append n []

/-- Method `Namespace.String`: the raw bytes reinterpreted as a string (strings
are byte lists here). -/
def Namespace.StringGo (n : Namespace) : List Nat :=
  Namespace.Append n []

/-- Function `NewNamespace(v)`: the input string must be exactly `nsLength` bytes,
otherwise `errNamespaceSize`; on success the bytes are copied into the
namespace array (the zero `Namespace{}` is returned next to the error). -/
def NewNamespace (v : List Nat) : Namespace × Option GoErr :=
  match v with
  | [a, b, c] => (⟨a, b, c⟩, none)
  | _ => (⟨0, 0, 0⟩, some GoErr.namespaceSize)

/-- Function `MustNamespace(v)`: same as `NewNamespace` but panics on invalid
input; it is only applied to the valid constant `"unk"`, so the model
returns the value component. -/
def MustNamespace (v : List Nat) : Namespace :=
  (NewNamespace v).1

/-- Variable `Unknown = MustNamespace("unk")` — the bytes of `"unk"` are
`117 110 107`. -/
def Unknown : Namespace := MustNamespace [117, 110, 107]

/-- The heterogeneous argument of `Namespace.Equal` (Go `interface{}`):
a `Namespace`, a `[3]byte` array, a `[]byte` slice, a `string`, or a value
of any other dynamic type. -/
inductive GoValue
  | ns (v : Namespace)
  | arr3 (a b c : Nat)
  | bytes (v : List Nat)
  | str (v : List Nat)
  | other
deriving DecidableEq, Repr

/-- Method `Namespace.Equal` on a heterogeneous argument: a type switch; each matching arm
compares byte content with `bytes.Equal`, the default arm returns false. -/
def Namespace.Equal (n : Namespace) (that : GoValue) : Bool :=
  match that with
  | GoValue.ns v => n.raw == v.raw
  | GoValue.arr3 a b c => n.raw == [a, b, c]
  | GoValue.bytes v => n.raw == v
  | GoValue.str v => n.raw == v
  | GoValue.other => false

/-! ## ID (`type ID struct { ns Namespace; ksuid ksuid.KSUID }`) -/

/-- A ksuidx identifier: a namespace plus the embedded 20-byte KSUID. -/
structure ID where
  ns : Namespace
  ksuid : List Nat
deriving DecidableEq, Repr

/-- The Go zero value `ID{}`: zero namespace and the all-zero KSUID. -/
def zeroID : ID := { ns := ⟨0, 0, 0⟩, ksuid := ksuidNil }

/-- Variable `Nil`, the canonical nil identifier: `Unknown` namespace and
`ksuid.Nil`. -/
def NilID : ID := { ns := Unknown, ksuid := ksuidNil }

/-- Go's `copy(id.ns[:], src)` for a source slice of at least 3 bytes:
the first three bytes fill the array (missing bytes leave zeros). -/
def nsCopy (src : List Nat) : Namespace :=
  ⟨src.headD 0, (src.drop 1).headD 0, (src.drop 2).headD 0⟩

/-- Function `FromBytes(b)`: a 23-byte buffer splits into namespace and KSUID
segments; any other length is decoded whole as a bare KSUID with the
`Unknown` namespace; on error the zero `ID{}` is returned. -/
def FromBytes (b : List Nat) : ID × Option GoErr :=
  if b.length = byteLength then
    match ksuidFromBytes (b.drop nsLength) with
    | (_, some e) => (zeroID, some e)
    | (v, none) => ({ ns := nsCopy (b.take nsLength), ksuid := v }, none)
  else
    match ksuidFromBytes b with
    | (_, some e) => (zeroID, some e)
    | (v, none) => ({ ns := Unknown, ksuid := v }, none)

/-- Function `Parse(s)`: length 27 decodes the whole string as a bare KSUID with
namespace `Unknown`; any length other than 27 or 30 fails with
`errStringSize`; length 30 splits into a namespace (first 3 bytes) and the
KSUID string (remaining 27); on error the zero `ID{}` is returned. -/
def Parse (s : List Nat) : ID × Option GoErr :=
  if s.length = stringEncodedLength - nsLength then
    match ksuidParse s with
    | (_, some e) => (zeroID, some e)
    | (v, none) => ({ ns := Unknown, ksuid := v }, none)
  else if s.length ≠ stringEncodedLength then
    (zeroID, some GoErr.stringSize)
  else
    match NewNamespace (s.take nsLength) with
    | (_, some e) => (zeroID, some e)
    | (ns, none) =>
      match ksuidParse (s.drop nsLength) with
      | (_, some e) => (zeroID, some e)
      | (v, none) => ({ ns := ns, ksuid := v }, none)

/-- Function `NewRandomWithTime(ns, t)`: the KSUID primitive generates a fresh
value for time `t` (spec contract: `generate-with-given-time returning 20
bytes or an error`); that generation result is the `gen` argument.  A
generation error propagates with the zero `ID{}`; otherwise the id is the
namespace plus the generated KSUID. -/
def NewRandomWithTime (ns : Namespace) (gen : List Nat × Option GoErr) :
    ID × Option GoErr :=
  match gen with
  | (_, some e) => (zeroID, some e)
  | (v, none) => ({ ns := ns, ksuid := v }, none)

/-- Method `ID.Append(b)`: append the namespace bytes, then the KSUID's own
append-encoding (its 27-character string form). -/
def ID.Append (i : ID) (b : List Nat) : List Nat :=
  ksuidAppend i.ksuid (b ++ i.ns.raw)

/-- Method `ID.Bytes()`: fresh buffer, namespace bytes appended, then the raw 20
KSUID bytes appended (23 bytes). -/
def ID.Bytes (i : ID) : List Nat :=
  Namespace.Append i.ns [] ++ i.ksuid

/-- Method `ID.String()`: the bytes produced by `Append` on a fresh buffer,
reinterpreted as a string. -/
def ID.StringGo (i : ID) : List Nat :=
  ID.Append i []

/-! ## JSON adapter -/

/-- Result of the JSON library's unmarshal-into-string. -/
inductive JsonStringResult
  /-- malformed JSON, or a JSON value that is not a string. -/
  | errSyntax
  /-- the token `null`: no error, and the target string is not touched. -/
  | isNull
  /-- a JSON string literal with the given contents. -/
  | str (s : List Nat)
deriving DecidableEq, Repr

/-- Byte list of the JSON token `null`. -/
def nullToken : List Nat := [110, 117, 108, 108]

/-- Is `b` a plain JSON string literal: quote, interior bytes that are
neither a quote, a backslash nor a control character, quote? -/
def jsonPlainString (b : List Nat) : Bool :=
  decide (2 ≤ b.length) && (b.headD 0 == 34) && (b.getLast? == some 34) &&
    ((b.drop 1).dropLast.all fun c => c != 34 && c != 92 && decide (32 ≤ c))

/-- Modelled from the spec: the JSON library's unmarshal of a JSON value
into a string variable (`json.Unmarshal(b, &s)`).  A string literal yields
its contents; "a `null` JSON token does not invoke the string-based decode
path at all" — it succeeds and leaves the target unchanged; anything else
is the JSON library's own error.  Escape sequences inside string literals
are not modelled. -/
def jsonUnmarshalString (b : List Nat) : JsonStringResult :=
  if b = nullToken then JsonStringResult.isNull
  else if jsonPlainString b then JsonStringResult.str ((b.drop 1).dropLast)
  else JsonStringResult.errSyntax

/-- Method `ID.UnmarshalJSON(b)`: unmarshal `b` into a string `s` (an error
propagates and the receiver `i` is untouched); `null` leaves `s` as the
empty string, and `s == ""` assigns `Nil` to the receiver; otherwise the
receiver becomes `Parse(s)`, with a parse error propagated and the
receiver untouched. -/
def UnmarshalJSON (i : ID) (b : List Nat) : ID × Option GoErr :=
  match jsonUnmarshalString b with
  | JsonStringResult.errSyntax => (i, some GoErr.jsonSyntax)
  | JsonStringResult.isNull => (NilID, none)
  | JsonStringResult.str s =>
    if s = [] then (NilID, none)
    else
      match Parse s with
      | (_, some e) => (i, some e)
      | (id, none) => (id, none)

/-! ## Helper lemmas shared by the claim theorems -/

/-- The spec's view of `Namespace.Equal`'s heterogeneous argument: the byte
content of a `Namespace`, 3-byte array, byte sequence, or string argument,
and `none` for an argument of any other type. -/
def GoValue.byteContent : GoValue → Option (List Nat)
  | GoValue.ns v => some v.raw
  | GoValue.arr3 a b c => some [a, b, c]
  | GoValue.bytes v => some v
  | GoValue.str v => some v
  | GoValue.other => none

theorem ksuidParse_not_stringSize (s : List Nat) :
    (ksuidParse s).2 ≠ some GoErr.stringSize := by
  rw [ksuidParse]
  split
  · cases hm : mapDigits s with
    | none => simp
    | some ds =>
      simp only [hm]
      split <;> simp
  · simp

theorem NewNamespace_length3 (v : List Nat) (h : v.length = 3) :
    NewNamespace v = (nsCopy v, none) := by
  obtain ⟨a, b, c, rfl⟩ := List.length_eq_three.mp h
  rfl

theorem FromBytes_bare (b : List Nat) (hb : b.length = 20) :
    FromBytes b = ({ ns := Unknown, ksuid := b }, none) := by
  have hk : ksuidFromBytes b = (b, none) := by
    rw [ksuidFromBytes, if_pos (by rw [hb]; rfl)]
  rw [FromBytes, if_neg (by rw [hb]; decide), hk]

theorem Parse_bare (s : List Nat) (hs : s.length = 27) (v : List Nat)
    (hok : ksuidParse s = (v, none)) :
    Parse s = ({ ns := Unknown, ksuid := v }, none) := by
  rw [Parse, if_pos (by rw [hs]; rfl), hok]

theorem FromBytes_roundtrip (ns : Namespace) (v : List Nat)
    (h20 : v.length = 20) :
    FromBytes (ID.Bytes { ns := ns, ksuid := v }) =
      ({ ns := ns, ksuid := v }, none) := by
  have hb : ID.Bytes { ns := ns, ksuid := v } =
      ns.b0 :: ns.b1 :: ns.b2 :: v := rfl
  have hlen : (ns.b0 :: ns.b1 :: ns.b2 :: v).length = byteLength := by
    simp [h20, byteLength]
  have hk : ksuidFromBytes ((ns.b0 :: ns.b1 :: ns.b2 :: v).drop nsLength) =
      (v, none) := by
    rw [show (ns.b0 :: ns.b1 :: ns.b2 :: v).drop nsLength = v from rfl,
      ksuidFromBytes, if_pos (by rw [h20]; rfl)]
  rw [hb, FromBytes, if_pos hlen, hk]
  rfl

theorem Parse_roundtrip (ns : Namespace) (v : List Nat)
    (h20 : v.length = 20) (h256 : ∀ x ∈ v, x < 256) :
    Parse (ID.StringGo { ns := ns, ksuid := v }) =
      ({ ns := ns, ksuid := v }, none) := by
  have hs : ID.StringGo { ns := ns, ksuid := v } =
      ns.b0 :: ns.b1 :: ns.b2 :: ksuidToString v := by
    simp [ID.StringGo, ID.Append, ksuidAppend, Namespace.raw]
  have hlen : (ns.b0 :: ns.b1 :: ns.b2 :: ksuidToString v).length = 30 := by
    simp [ksuidToString_length]
  have h1 : ¬((ns.b0 :: ns.b1 :: ns.b2 :: ksuidToString v).length =
      stringEncodedLength - nsLength) := by rw [hlen]; decide
  have h2 : ¬((ns.b0 :: ns.b1 :: ns.b2 :: ksuidToString v).length ≠
      stringEncodedLength) := by rw [hlen]; decide
  have htake : (ns.b0 :: ns.b1 :: ns.b2 :: ksuidToString v).take nsLength =
      [ns.b0, ns.b1, ns.b2] := rfl
  have hdrop : (ns.b0 :: ns.b1 :: ns.b2 :: ksuidToString v).drop nsLength =
      ksuidToString v := rfl
  rw [hs, Parse, if_neg h1, if_neg h2, htake, hdrop,
    show NewNamespace [ns.b0, ns.b1, ns.b2] = (ns, none) from rfl,
    ksuidParse_toString v h20 h256]

theorem stringGo_take_three (i : ID) :
    (ID.StringGo i).take 3 = i.ns.raw := by
  have hs : ID.StringGo i =
      i.ns.b0 :: i.ns.b1 :: i.ns.b2 :: ksuidToString i.ksuid := by
    simp [ID.StringGo, ID.Append, ksuidAppend, Namespace.raw]
  rw [hs]
  rfl

/-! ## The claims -/

/-- C1: for every namespace `ns` and every KSUID-generation outcome for
which minting succeeds (the primitive's contract: it returns a 20-byte
value), the minted identifier round-trips through both codecs: `Parse` of
its string form and `FromBytes` of its byte form each return it without
error, with the same namespace bytes and the same embedded KSUID bytes. -/
theorem c1_mint_roundtrip (ns : Namespace) (v : List Nat) (id : ID)
    (h20 : v.length = 20) (h256 : ∀ x ∈ v, x < 256)
    (hmint : NewRandomWithTime ns (v, none) = (id, none)) :
    Parse (ID.StringGo id) = (id, none) ∧
    FromBytes (ID.Bytes id) = (id, none) := by
  have hid : id = { ns := ns, ksuid := v } := by
    have : ({ ns := ns, ksuid := v } : ID) = id :=
      congrArg Prod.fst hmint
    exact this.symm
  subst hid
  exact ⟨Parse_roundtrip ns v h20 h256, FromBytes_roundtrip ns v h20⟩

/-- C1 witness: a concrete mint with namespace `"abc"` and an all-`7`
payload round-trips through both codecs. -/
theorem c1_mint_roundtrip_witness :
    Parse (ID.StringGo { ns := ⟨97, 98, 99⟩, ksuid := List.replicate 20 7 }) =
      ({ ns := ⟨97, 98, 99⟩, ksuid := List.replicate 20 7 }, none) ∧
    FromBytes (ID.Bytes { ns := ⟨97, 98, 99⟩, ksuid := List.replicate 20 7 }) =
      ({ ns := ⟨97, 98, 99⟩, ksuid := List.replicate 20 7 }, none) :=
  c1_mint_roundtrip ⟨97, 98, 99⟩ (List.replicate 20 7) _
    (by decide) (by decide) rfl

/-- C2 counterexample: on the canonical `Nil` identifier, `Bytes` (the 23
raw bytes) and `Append` into an empty buffer (the 30-byte string encoding)
are not bit-identical, so the claim as stated is false. -/
theorem c2_bytes_append_counterexample :
    ID.Bytes NilID ≠ ID.Append NilID [] := by decide

/-- C2 (amended): `Bytes` is the namespace bytes followed by the raw 20
KSUID bytes, while `Append` into an empty buffer produces the 30-byte
string encoding — exactly the output of `String()` — and the two are never
bit-identical. -/
theorem c2_bytes_vs_append (i : ID) (h20 : i.ksuid.length = 20) :
    ID.Bytes i = i.ns.raw ++ i.ksuid ∧
    ID.Append i [] = ID.StringGo i ∧
    ID.Bytes i ≠ ID.Append i [] := by
  refine ⟨rfl, rfl, fun h => ?_⟩
  have h1 : (ID.Bytes i).length = 23 := by
    simp [ID.Bytes, Namespace.Append, Namespace.raw, h20]
  have h2 : (ID.Append i []).length = 30 := by
    simp [ID.Append, ksuidAppend, Namespace.raw, ksuidToString_length]
  rw [h] at h1
  rw [h2] at h1
  exact absurd h1 (by decide)

/-- C2 witness: the amended statement at the concrete `Nil` identifier. -/
theorem c2_bytes_vs_append_witness :
    ID.Bytes NilID = NilID.ns.raw ++ NilID.ksuid ∧
    ID.Append NilID [] = ID.StringGo NilID ∧
    ID.Bytes NilID ≠ ID.Append NilID [] :=
  c2_bytes_vs_append NilID (by decide)

/-- C3 counterexample: unmarshaling the JSON token `null` into the
zero-value identifier succeeds, but the result is not the zero-value
identifier (its namespace is `"unk"`, not all-zero), so the claim as
stated is false. -/
theorem c3_null_counterexample :
    (UnmarshalJSON zeroID nullToken).2 = none ∧
    (UnmarshalJSON zeroID nullToken).1 ≠ zeroID := by decide

/-- C3 (amended): unmarshaling the JSON token `null` succeeds without
error and sets the receiver to the canonical `Nil` identifier — the
`Unknown` namespace paired with the all-zero embedded KSUID — whatever the
receiver held before. -/
theorem c3_null_yields_nil (i : ID) :
    UnmarshalJSON i nullToken = (NilID, none) ∧
    NilID = { ns := Unknown, ksuid := List.replicate 20 0 } :=
  ⟨rfl, rfl⟩

/-- C4: `Parse` fails with the single canonical string-size error value on
every input whose length is neither 27 nor 30 (for example the 4-byte
input `"blah"`), and never returns that error for inputs of length 27 or
30 — any failure there is the opaque decoder's own error value. -/
theorem c4_parse_string_size (s : List Nat) :
    (s.length ≠ 27 → s.length ≠ 30 →
      Parse s = (zeroID, some GoErr.stringSize)) ∧
    (s.length = 27 ∨ s.length = 30 →
      (Parse s).2 ≠ some GoErr.stringSize) := by
  constructor
  · intro h27 h30
    have hc1 : ¬(s.length = stringEncodedLength - nsLength) := by
      simpa [stringEncodedLength, nsLength, byteLength, baseLength] using h27
    have hc2 : s.length ≠ stringEncodedLength := by
      simpa [stringEncodedLength] using h30
    rw [Parse, if_neg hc1, if_pos hc2]
  · rintro (h27 | h30)
    · rcases hk : ksuidParse s with ⟨v, _ | e⟩
      · rw [Parse, if_pos (by rw [h27]; rfl), hk]
        simp
      · rw [Parse, if_pos (by rw [h27]; rfl), hk]
        have hne := ksuidParse_not_stringSize s
        rw [hk] at hne
        simpa using hne
    · have ht : (s.take nsLength).length = 3 := by
        simp [List.length_take, h30, nsLength, byteLength, baseLength]
      rcases hk : ksuidParse (s.drop nsLength) with ⟨v, _ | e⟩
      · rw [Parse, if_neg (by rw [h30]; decide), if_neg (by rw [h30]; decide),
          NewNamespace_length3 _ ht, hk]
        simp
      · rw [Parse, if_neg (by rw [h30]; decide), if_neg (by rw [h30]; decide),
          NewNamespace_length3 _ ht, hk]
        have hne := ksuidParse_not_stringSize (s.drop nsLength)
        rw [hk] at hne
        simpa using hne

/-- C4 witness: the 4-byte input `"blah"` fails with the canonical
string-size error, and a 27-byte input never does. -/
theorem c4_parse_string_size_witness :
    Parse [98, 108, 97, 104] = (zeroID, some GoErr.stringSize) ∧
    (Parse (List.replicate 27 48)).2 ≠ some GoErr.stringSize :=
  ⟨(c4_parse_string_size [98, 108, 97, 104]).1 (by decide) (by decide),
   (c4_parse_string_size (List.replicate 27 48)).2 (Or.inl (by decide))⟩

/-- C5: a 20-byte buffer the opaque binary decoder accepts makes
`FromBytes` succeed with namespace `Unknown`, and a 27-byte string the
opaque string decoder accepts makes `Parse` succeed with namespace
`Unknown`. -/
theorem c5_bare_decode_unknown (b s : List Nat) (hb : b.length = 20)
    (hs : s.length = 27) (hok : (ksuidParse s).2 = none) :
    ((FromBytes b).2 = none ∧ (FromBytes b).1.ns = Unknown) ∧
    ((Parse s).2 = none ∧ (Parse s).1.ns = Unknown) := by
  constructor
  · rw [FromBytes_bare b hb]
    exact ⟨rfl, rfl⟩
  · rcases hk : ksuidParse s with ⟨v, e⟩
    have he : e = none := by rw [hk] at hok; simpa using hok
    subst he
    rw [Parse_bare s hs v hk]
    exact ⟨rfl, rfl⟩

/-- C5 witness: the all-zero 20-byte buffer and the all-`'0'` 27-byte
string both decode to `Unknown`-namespaced identifiers. -/
theorem c5_bare_decode_unknown_witness :
    ((FromBytes (List.replicate 20 0)).2 = none ∧
      (FromBytes (List.replicate 20 0)).1.ns = Unknown) ∧
    ((Parse (List.replicate 27 48)).2 = none ∧
      (Parse (List.replicate 27 48)).1.ns = Unknown) :=
  c5_bare_decode_unknown (List.replicate 20 0) (List.replicate 27 48)
    (by decide) (by decide) (by decide)

/-- C6: atomicity on error — when `FromBytes` or `Parse` fails the
identifier returned alongside the error is the zero value, and when
`UnmarshalJSON` fails the receiver is left unchanged. -/
theorem c6_atomic_on_error :
    (∀ b, (FromBytes b).2 ≠ none → (FromBytes b).1 = zeroID) ∧
    (∀ s, (Parse s).2 ≠ none → (Parse s).1 = zeroID) ∧
    (∀ i b, (UnmarshalJSON i b).2 ≠ none → (UnmarshalJSON i b).1 = i) := by
  refine ⟨fun b h => ?_, fun s h => ?_, fun i b h => ?_⟩
  · by_cases hlen : b.length = byteLength
    · rcases hk : ksuidFromBytes (b.drop nsLength) with ⟨v, _ | e⟩
      · rw [FromBytes, if_pos hlen, hk] at h
        simp at h
      · rw [FromBytes, if_pos hlen, hk]
    · rcases hk : ksuidFromBytes b with ⟨v, _ | e⟩
      · rw [FromBytes, if_neg hlen, hk] at h
        simp at h
      · rw [FromBytes, if_neg hlen, hk]
  · by_cases h27 : s.length = stringEncodedLength - nsLength
    · rcases hk : ksuidParse s with ⟨v, _ | e⟩
      · rw [Parse, if_pos h27, hk] at h
        simp at h
      · rw [Parse, if_pos h27, hk]
    · by_cases h30 : s.length ≠ stringEncodedLength
      · rw [Parse, if_neg h27, if_pos h30]
      · rcases hns : NewNamespace (s.take nsLength) with ⟨n, _ | e⟩
        · rcases hk : ksuidParse (s.drop nsLength) with ⟨v, _ | e⟩
          · rw [Parse, if_neg h27, if_neg h30, hns, hk] at h
            simp at h
          · rw [Parse, if_neg h27, if_neg h30, hns, hk]
        · rw [Parse, if_neg h27, if_neg h30, hns]
  · rcases hj : jsonUnmarshalString b with _ | _ | s2
    · simp only [UnmarshalJSON, hj]
    · simp only [UnmarshalJSON, hj] at h
      simp at h
    · by_cases hempty : s2 = []
      · simp only [UnmarshalJSON, hj] at h
        rw [if_pos hempty] at h
        simp at h
      · rcases hp : Parse s2 with ⟨id2, _ | e⟩
        · simp only [UnmarshalJSON, hj] at h
          rw [if_neg hempty, hp] at h
          simp at h
        · simp only [UnmarshalJSON, hj]
          rw [if_neg hempty, hp]

/-- C6 witness: concrete failing inputs for each decoder leave the zero
value (for `FromBytes` and `Parse`) or the untouched receiver (for
`UnmarshalJSON`). -/
theorem c6_atomic_on_error_witness :
    (FromBytes [1, 2, 3]).1 = zeroID ∧
    (Parse [98, 108, 97, 104]).1 = zeroID ∧
    (UnmarshalJSON NilID [120]).1 = NilID :=
  ⟨c6_atomic_on_error.1 [1, 2, 3] (by decide),
   c6_atomic_on_error.2.1 [98, 108, 97, 104] (by decide),
   c6_atomic_on_error.2.2 NilID [120] (by decide)⟩

/-- C7: unmarshaling the JSON string literal `""` succeeds without error
and sets the receiver to the canonical nil identifier: the `Unknown`
namespace paired with the all-zero embedded identifier. -/
theorem c7_empty_string_nil (i : ID) :
    UnmarshalJSON i [34, 34] = (NilID, none) ∧
    NilID = { ns := Unknown, ksuid := List.replicate 20 0 } :=
  ⟨rfl, rfl⟩

/-- C8: `Namespace.Equal` is a byte-for-byte comparison over its
heterogeneous argument: it returns true exactly when the argument is a
`Namespace`, a 3-byte array, a byte slice, or a string whose byte content
equals the namespace's 3 tag bytes, and false (never an error) for
mismatched content or an argument of any other type. -/
theorem c8_namespace_equal (n : Namespace) (that : GoValue) :
    Namespace.Equal n that = true ↔ GoValue.byteContent that = some n.raw := by
  cases that with
  | ns v =>
    simp only [Namespace.Equal, GoValue.byteContent, beq_iff_eq,
      Option.some.injEq]
    exact eq_comm
  | arr3 a b c =>
    simp only [Namespace.Equal, GoValue.byteContent, beq_iff_eq,
      Option.some.injEq]
    exact eq_comm
  | bytes v =>
    simp only [Namespace.Equal, GoValue.byteContent, beq_iff_eq,
      Option.some.injEq]
    exact eq_comm
  | str v =>
    simp only [Namespace.Equal, GoValue.byteContent, beq_iff_eq,
      Option.some.injEq]
    exact eq_comm
  | other =>
    simp [Namespace.Equal, GoValue.byteContent]

/-- C9: `NewNamespace` succeeds exactly on 3-byte input, in which case
`Bytes` and `String` return the input; any other length fails with the
single canonical namespace-size error value (and the zero namespace). -/
theorem c9_new_namespace (v : List Nat) :
    (v.length = 3 →
      (NewNamespace v).2 = none ∧
      Namespace.Bytes (NewNamespace v).1 = v ∧
      Namespace.StringGo (NewNamespace v).1 = v) ∧
    (v.length ≠ 3 →
      NewNamespace v = (⟨0, 0, 0⟩, some GoErr.namespaceSize)) := by
  constructor
  · intro h
    obtain ⟨a, b, c, rfl⟩ := List.length_eq_three.mp h
    exact ⟨rfl, rfl, rfl⟩
  · intro h
    rcases v with _ | ⟨a, _ | ⟨b, _ | ⟨c, _ | ⟨d, t⟩⟩⟩⟩
    · rfl
    · rfl
    · rfl
    · exact absurd rfl h
    · rfl

/-- C9 witness: `"abc"` constructs a namespace whose `Bytes` and `String`
round-trip, and a 2-byte input fails with the namespace-size error. -/
theorem c9_new_namespace_witness :
    ((NewNamespace [97, 98, 99]).2 = none ∧
      Namespace.Bytes (NewNamespace [97, 98, 99]).1 = [97, 98, 99] ∧
      Namespace.StringGo (NewNamespace [97, 98, 99]).1 = [97, 98, 99]) ∧
    NewNamespace [1, 2] = (⟨0, 0, 0⟩, some GoErr.namespaceSize) :=
  ⟨(c9_new_namespace [97, 98, 99]).1 (by decide),
   (c9_new_namespace [1, 2]).2 (by decide)⟩

/-- C10: the reserved `Unknown` namespace's tag bytes are the ASCII bytes
of `"unk"`; every identifier decoded from a bare 20-byte or accepted
27-byte form stringifies with that 3-byte prefix; and the canonical `Nil`
identifier is this namespace paired with the all-zero KSUID. -/
theorem c10_unknown_unk (b s : List Nat) (hb : b.length = 20)
    (hs : s.length = 27) (hok : (ksuidParse s).2 = none) :
    Unknown.raw = [117, 110, 107] ∧
    (ID.StringGo (FromBytes b).1).take 3 = [117, 110, 107] ∧
    (ID.StringGo (Parse s).1).take 3 = [117, 110, 107] ∧
    NilID = { ns := Unknown, ksuid := ksuidNil } := by
  refine ⟨rfl, ?_, ?_, rfl⟩
  · rw [FromBytes_bare b hb, stringGo_take_three]
    rfl
  · rcases hk : ksuidParse s with ⟨v, e⟩
    have he : e = none := by rw [hk] at hok; simpa using hok
    subst he
    rw [Parse_bare s hs v hk, stringGo_take_three]
    rfl

/-- C10 witness: the all-zero 20-byte buffer and the all-`'0'` 27-byte
string decode to identifiers whose string forms start with `"unk"`. -/
theorem c10_unknown_unk_witness :
    Unknown.raw = [117, 110, 107] ∧
    (ID.StringGo (FromBytes (List.replicate 20 0)).1).take 3 =
      [117, 110, 107] ∧
    (ID.StringGo (Parse (List.replicate 27 48)).1).take 3 =
      [117, 110, 107] ∧
    NilID = { ns := Unknown, ksuid := ksuidNil } :=
  c10_unknown_unk (List.replicate 20 0) (List.replicate 27 48)
    (by decide) (by decide) (by decide)

end Ksuidx
